import Mathlib

/-!
Shallow embedding of the Range-of-Outcomes (ROO) Monte Carlo simulation
engine of `roo_simulator.py`, together with the consumer-side correlated
lineup scorer of `modules/sims_tool.py`. Numeric (floating point) values
are modelled as real numbers; pandas rows become structures with `Option`
fields where the source uses `row.get` / missing-key semantics; the seeded
numpy generator is modelled as a deterministic stream derived from the
seed. Each claim about the code is settled by a theorem at the end of the
file.
-/

namespace ROOConfig

/-- Number of Monte Carlo iterations (`ROOConfig.N_SIMULATIONS`). -/
def N_SIMULATIONS : ℕ := 10000

/-- Random seed for reproducibility (`ROOConfig.RANDOM_SEED`). -/
def RANDOM_SEED : ℕ := 42

/-- Minimum games to use player-specific volatility. -/
def MIN_GAMES_FOR_PLAYER : ℕ := 4

/-- Lookback window in weeks. -/
def LOOKBACK_WEEKS : ℕ := 8

/-- Minimum standard deviation (floor for volatility). -/
def MIN_STD : ℝ := 3.0

/-- Maximum standard deviation (cap for extreme volatility). -/
def MAX_STD : ℝ := 20.0

/-- Minimum sigma for the lognormal distribution. -/
def MIN_SIGMA_LOG : ℝ := 0.2

/-- Maximum sigma for the lognormal distribution. -/
def MAX_SIGMA_LOG : ℝ := 1.5

/-- Minimum matchup volatility multiplier. -/
def MATCHUP_VOL_MIN : ℝ := 0.8

/-- Maximum matchup volatility multiplier. -/
def MATCHUP_VOL_MAX : ℝ := 1.3

/-- Small epsilon for numerical stability (`ROOConfig.EPS`). -/
def EPS : ℝ := 0.1

end ROOConfig

/-- Embedding of `np.clip(x, lo, hi)`: numpy computes
`minimum(hi, maximum(lo, x))`. -/
noncomputable def npclip (x lo hi : ℝ) : ℝ := min (max x lo) hi

theorem npclip_le (x lo hi : ℝ) : npclip x lo hi ≤ hi := min_le_right _ _

theorem le_npclip (x lo hi : ℝ) (h : lo ≤ hi) : lo ≤ npclip x lo hi :=
  le_min (le_max_right _ _) h

theorem npclip_eq_of_le_of_le {x lo hi : ℝ} (h1 : lo ≤ x) (h2 : x ≤ hi) :
    npclip x lo hi = x := by
  unfold npclip
  rw [max_eq_left h1, min_eq_left h2]

/-- Blend weight toward the player's own standard deviation,
`weight_player = hist_games / MIN_GAMES_FOR_PLAYER` from
`calc_effective_std` in `build_player_volatility`. -/
noncomputable def blendWeight (histGames : ℕ) : ℝ :=
  (histGames : ℝ) / (ROOConfig.MIN_GAMES_FOR_PLAYER : ℝ)

/-- Embedding of the row function `calc_effective_std` inside
`build_player_volatility` (roo_simulator.py lines 178-191). -/
noncomputable def calcEffectiveStd (histGames : ℕ) (histStd posStd : ℝ) : ℝ :=
  if ROOConfig.MIN_GAMES_FOR_PLAYER ≤ histGames then histStd
  else if 2 ≤ histGames then
    blendWeight histGames * histStd + (1 - blendWeight histGames) * posStd
  else posStd * 1.2

/-- Embedding of the row function `calc_lognormal_params` inside
`build_distributions` (roo_simulator.py lines 516-534). Returns the pair
`(mu_log, sigma_log)`. -/
noncomputable def calcLognormalParams (medianProjRaw adjStd : ℝ) : ℝ × ℝ :=
  let medianProj := max medianProjRaw ROOConfig.EPS
  let muLog := Real.log medianProj
  let relStd := adjStd / (medianProj + ROOConfig.EPS)
  let sigmaLog := npclip (Real.log (1 + relStd))
    ROOConfig.MIN_SIGMA_LOG ROOConfig.MAX_SIGMA_LOG
  (muLog, sigmaLog)

/-- Helper: `1.5 ≤ log 16`, since `exp 1.5 ≤ exp 2 = (exp 1)^2 < 16`. -/
theorem log16_ge : (1.5 : ℝ) ≤ Real.log 16 := by
  rw [Real.le_log_iff_exp_le (by norm_num)]
  have h2 : Real.exp 1.5 ≤ Real.exp 2 := Real.exp_le_exp.mpr (by norm_num)
  have h3 : Real.exp 2 = Real.exp 1 * Real.exp 1 := by
    rw [← Real.exp_add]; norm_num
  nlinarith [Real.exp_one_lt_d9, Real.exp_pos 1]

/-- Helper: once the argument of the log is at least 16, the clipped sigma
saturates at the upper bound 1.5. -/
theorem sigma_clip_sat {y : ℝ} (hy : (16 : ℝ) ≤ y) :
    npclip (Real.log y) 0.2 1.5 = 1.5 := by
  have hlog : (1.5 : ℝ) ≤ Real.log y := by
    refine le_trans log16_ge ?_
    exact Real.log_le_log (by norm_num) hy
  unfold npclip
  rw [max_eq_left (le_trans (by norm_num) hlog), min_eq_right hlog]

/-- Abbreviation-to-full-name team map used by `calculate_weighted_proe`
and the slate builder (roo_simulator.py lines 253-262 and 709-718). -/
def abbrevToFull : List (String × String) :=
  [("ARI", "Cardinals"), ("ATL", "Falcons"), ("BAL", "Ravens"), ("BUF", "Bills"),
   ("CAR", "Panthers"), ("CHI", "Bears"), ("CIN", "Bengals"), ("CLE", "Browns"),
   ("DAL", "Cowboys"), ("DEN", "Broncos"), ("DET", "Lions"), ("GB", "Packers"),
   ("HOU", "Texans"), ("IND", "Colts"), ("JAX", "Jaguars"), ("KC", "Chiefs"),
   ("LAC", "Chargers"), ("LAR", "Rams"), ("LV", "Raiders"), ("MIA", "Dolphins"),
   ("MIN", "Vikings"), ("NE", "Patriots"), ("NO", "Saints"), ("NYG", "Giants"),
   ("NYJ", "Jets"), ("PHI", "Eagles"), ("PIT", "Steelers"), ("SEA", "Seahawks"),
   ("SF", "49ers"), ("TB", "Buccaneers"), ("TEN", "Titans"), ("WAS", "Commanders")]

/-- Lookup in the abbreviation map with the abbreviation itself as the
fallback, mirroring `abbrev_to_full.get(team_abbrev, team_abbrev)`. -/
def abbrevFull (teamAbbrev : String) : String :=
  (abbrevToFull.lookup teamAbbrev).getD teamAbbrev

/-- One row of the `weekly_proe` table: columns `posteam`, `week`, `proe`. -/
structure ProeRow where
  posteam : String
  week : ℤ
  proe : ℝ

/-- Embedding of `calculate_weighted_proe` (roo_simulator.py lines
237-287): filter to the team's rows, sort by week descending, keep the
most recent `lookbackWeeks` rows, weight by powers of 0.85 and divide by
the total weight; return 0.0 when the team has no rows. -/
noncomputable def calculateWeightedProe (teamAbbrev : String)
    (weeklyProe : List ProeRow) (lookbackWeeks : ℕ) : ℝ :=
  let teamFull := abbrevFull teamAbbrev
  let teamProe := weeklyProe.filter (fun r => r.posteam == teamFull)
  if teamProe.isEmpty then 0
  else
    let recent := (List.insertionSort (fun a b => b.week ≤ a.week) teamProe).take
      lookbackWeeks
    let weights := (List.range recent.length).map (fun i => (0.85 : ℝ) ^ i)
    let totalWeight := weights.sum
    if totalWeight = 0 then 0
    else ((recent.zip weights).map (fun rw => rw.1.proe * rw.2)).sum / totalWeight

/-- League averages computed by `compute_league_averages`
(roo_simulator.py lines 210-234). -/
structure LeagueAvgs where
  epaPlay : ℝ
  explosivePlayRate : ℝ
  pointsPerDrive : ℝ
  epaPlayAllowed : ℝ
  explosivePlayRateAllowed : ℝ
  pointsPerDriveAllowed : ℝ
  impliedTotal : ℝ

/-- One slate row as seen by `compute_matchup_multiplier`. Fields read
through `row.get(key, default)` are `Option`-valued: `none` models a key
absent from the pandas Series. -/
structure MatchupRow where
  teamEpaPlay : Option ℝ
  teamExplosivePlayRate : Option ℝ
  teamPointsPerDrive : Option ℝ
  oppEpaPlayAllowed : Option ℝ
  oppExplosivePlayRateAllowed : Option ℝ
  oppPointsPerDriveAllowed : Option ℝ
  itt : Option ℝ
  team : Option String

/-- Embedding of `compute_matchup_multiplier` (roo_simulator.py lines
290-366). -/
noncomputable def computeMatchupMultiplier (row : MatchupRow)
    (leagueAvgs : LeagueAvgs) (weeklyProe : Option (List ProeRow)) : ℝ :=
  let teamEpa := row.teamEpaPlay.getD leagueAvgs.epaPlay
  let teamExplosive := row.teamExplosivePlayRate.getD leagueAvgs.explosivePlayRate
  let teamPpd := row.teamPointsPerDrive.getD leagueAvgs.pointsPerDrive
  let epaDiff := teamEpa - leagueAvgs.epaPlay
  let offEpaFactor := 1.0 + epaDiff * 2.5
  let offExplosiveFactor :=
    if leagueAvgs.explosivePlayRate ≠ 0 then teamExplosive / leagueAvgs.explosivePlayRate
    else 1.0
  let offPpdFactor :=
    if leagueAvgs.pointsPerDrive ≠ 0 then teamPpd / leagueAvgs.pointsPerDrive
    else 1.0
  let offFactorRaw := (offEpaFactor + offExplosiveFactor + offPpdFactor) / 3.0
  let oppEpaAllowed := row.oppEpaPlayAllowed.getD leagueAvgs.epaPlayAllowed
  let oppExplosiveAllowed :=
    row.oppExplosivePlayRateAllowed.getD leagueAvgs.explosivePlayRateAllowed
  let oppPpdAllowed := row.oppPointsPerDriveAllowed.getD leagueAvgs.pointsPerDriveAllowed
  let epaAllowedDiff := oppEpaAllowed - leagueAvgs.epaPlayAllowed
  let defEpaFactor := 1.0 + epaAllowedDiff * 2.5
  let defExplosiveFactor :=
    if leagueAvgs.explosivePlayRateAllowed ≠ 0 then
      oppExplosiveAllowed / leagueAvgs.explosivePlayRateAllowed
    else 1.0
  let defPpdFactor :=
    if leagueAvgs.pointsPerDriveAllowed ≠ 0 then
      oppPpdAllowed / leagueAvgs.pointsPerDriveAllowed
    else 1.0
  let defFactorRaw := (defEpaFactor + defExplosiveFactor + defPpdFactor) / 3.0
  let ittVal := row.itt.getD leagueAvgs.impliedTotal
  let itFactorRaw :=
    if leagueAvgs.impliedTotal > 0 then ittVal / leagueAvgs.impliedTotal else 1.0
  let proeAdjustment :=
    match weeklyProe, row.team with
    | some tbl, some t => calculateWeightedProe t tbl 8 * 0.67
    | _, _ => 0.0
  let matchupScore := 1.0 + (offFactorRaw - 1.0) * 0.20 + (defFactorRaw - 1.0) * 0.20
      + (itFactorRaw - 1.0) * 0.15 + proeAdjustment
  npclip matchupScore ROOConfig.MATCHUP_VOL_MIN ROOConfig.MATCHUP_VOL_MAX

/-- Adjusted standard deviation from `build_distributions`
(roo_simulator.py lines 507-511): multiply the effective std by the
matchup multiplier and clip to `[MIN_STD, MAX_STD]`. -/
noncomputable def buildAdjStd (effectiveStd matchupVolMultiplier : ℝ) : ℝ :=
  npclip (effectiveStd * matchupVolMultiplier) ROOConfig.MIN_STD ROOConfig.MAX_STD

/-- Embedding of the row function `get_effective_std` inside
`build_distributions` (roo_simulator.py lines 493-497): a player whose
volatility merge failed falls back to the position-level mean effective
std, and to the constant 5.0 when the position is absent from
`pos_defaults`. -/
noncomputable def getEffectiveStd (mergedStd : Option ℝ) (position : String)
    (posDefaults : List (String × ℝ)) : ℝ :=
  match mergedStd with
  | some v => v
  | none => (posDefaults.lookup position).getD 5.0

/-- Team offensive efficiency metrics of one `sharp_offense` row. -/
structure OffenseMetrics where
  epaPlay : ℝ
  explosivePlayRate : ℝ
  pointsPerDrive : ℝ

/-- Opponent defensive efficiency metrics of one `sharp_defense` row. -/
structure DefenseMetrics where
  epaPlayAllowed : ℝ
  explosivePlayRateAllowed : ℝ
  pointsPerDriveAllowed : ℝ

/-- Slate-row construction in `generate_roo_projections` (roo_simulator.py
lines 724-766): the offense/defense efficiency tables are left-merged on
the full team name and missing values are then filled with 0 via
`fillna(0)`, so a team absent from a table yields metrics equal to 0, not
an absent key. -/
noncomputable def slateRowMetrics (sharpOffense : List (String × OffenseMetrics))
    (sharpDefense : List (String × DefenseMetrics)) (teamFull oppFull : String)
    (ittVal : ℝ) (team : String) : MatchupRow :=
  let offm := (sharpOffense.lookup teamFull).getD ⟨0, 0, 0⟩
  let defm := (sharpDefense.lookup oppFull).getD ⟨0, 0, 0⟩
  { teamEpaPlay := some offm.epaPlay
    teamExplosivePlayRate := some offm.explosivePlayRate
    teamPointsPerDrive := some offm.pointsPerDrive
    oppEpaPlayAllowed := some defm.epaPlayAllowed
    oppExplosivePlayRateAllowed := some defm.explosivePlayRateAllowed
    oppPointsPerDriveAllowed := some defm.pointsPerDriveAllowed
    itt := some ittVal
    team := some team }

/-- Modelled 64-bit linear congruential step standing in for numpy's
seeded Mersenne Twister state transition. The claims proved below depend
only on the stream being a pure function of the seed, not on its
distributional content. -/
def lcgNext (s : ℕ) : ℕ := (6364136223846793005 * s + 1442695040888963407) % 2 ^ 64

/-- Modelled generator-state initialization performed by
`np.random.seed(seed)`. -/
def seedState (seed : ℕ) : ℕ := (seed + 11400714819323198485) % 2 ^ 64

/-- Uniform-in-unit-interval value derived from a generator state. -/
noncomputable def unitDraw (s : ℕ) : ℝ := ((s % 2 ^ 53 : ℕ) : ℝ) / 2 ^ 53

/-- The k-th normal-style draw of the generator seeded with `seed`. -/
noncomputable def stdNormalAt (seed k : ℕ) : ℝ :=
  2 * unitDraw (lcgNext^[k + 1] (seedState seed)) - 1

/-- Outcome matrix drawn from the generator seeded with `seed`
(roo_simulator.py lines 567-575): entry (i, j) is the lognormal draw
`exp(mu_j + sigma_j * z)` using the (i * nPlayers + j)-th draw of the
seeded stream, matching the row-major order in which the per-iteration
vectorized `np.random.lognormal(mean=mu_arr, sigma=sigma_arr)` call
consumes the generator. -/
noncomputable def sampleMatrix (seed nPlayers : ℕ) (muLog sigmaLog : ℕ → ℝ) :
    ℕ → ℕ → ℝ :=
  fun i j => Real.exp (muLog j + sigmaLog j * stdNormalAt seed (i * nPlayers + j))

/-- Embedding of the sampling phase of `run_simulations` (roo_simulator.py
lines 549-577). The incoming global generator state `globalState` is
discarded because `np.random.seed(ROOConfig.RANDOM_SEED)` reinitializes
the generator from the configured seed before any draw. -/
noncomputable def runSimulations (globalState nPlayers : ℕ)
    (muLog sigmaLog : ℕ → ℝ) : ℕ → ℕ → ℝ :=
  sampleMatrix ROOConfig.RANDOM_SEED nPlayers muLog sigmaLog

/-- Samples sorted in nondecreasing order, as `np.percentile` sorts its
input before interpolating. -/
noncomputable def sortedSample (xs : List ℝ) : List ℝ :=
  List.insertionSort (· ≤ ·) xs

/-- Entry i of the sorted sample, with the index clamped to the last
element and default 0 for an empty sample. -/
noncomputable def sampleAt (xs : List ℝ) (i : ℕ) : ℝ :=
  (sortedSample xs).getD (min i (xs.length - 1)) 0

/-- Linear interpolation of the sorted sample at fractional position `h`:
`a[floor h] + (h - floor h) * (a[floor h + 1] - a[floor h])`. -/
noncomputable def interpAt (xs : List ℝ) (h : ℝ) : ℝ :=
  sampleAt xs ⌊h⌋₊ + (h - (⌊h⌋₊ : ℝ)) * (sampleAt xs (⌊h⌋₊ + 1) - sampleAt xs ⌊h⌋₊)

/-- Embedding of `np.percentile(sample, q)` with the default linear
interpolation: the fractional position is `q / 100 * (n - 1)`. -/
noncomputable def nppercentile (xs : List ℝ) (q : ℝ) : ℝ :=
  interpAt xs (q * ((xs.length : ℝ) - 1) / 100)

/-- Percentile of column j of an outcome matrix over the first `nSims`
rows, as computed by `np.percentile(sim_matrix, pct, axis=0)` in
`run_simulations` (roo_simulator.py lines 579-586). -/
noncomputable def simPercentileColumn (matrix : ℕ → ℕ → ℝ) (nSims j : ℕ)
    (q : ℝ) : ℝ :=
  nppercentile ((List.range nSims).map (fun i => matrix i j)) q

theorem sortedSample_length (xs : List ℝ) :
    (sortedSample xs).length = xs.length :=
  (List.perm_insertionSort _ xs).length_eq

theorem sampleAt_mono (xs : List ℝ) {i j : ℕ} (hij : i ≤ j) :
    sampleAt xs i ≤ sampleAt xs j := by
  rcases Nat.eq_zero_or_pos xs.length with hn | hn
  · have hx : xs = [] := List.length_eq_zero.mp hn
    subst hx
    simp [sampleAt, sortedSample]
  · unfold sampleAt
    have hlen := sortedSample_length xs
    have hi : min i (xs.length - 1) < (sortedSample xs).length := by
      rw [hlen]; omega
    have hj : min j (xs.length - 1) < (sortedSample xs).length := by
      rw [hlen]; omega
    rw [List.getD_eq_get _ _ hi, List.getD_eq_get _ _ hj]
    exact (List.sorted_insertionSort _ xs).rel_get_of_le
      (show (⟨_, hi⟩ : Fin _) ≤ ⟨_, hj⟩ by simp [Fin.le_def]; omega)

theorem interpAt_le_next (xs : List ℝ) (h : ℝ) :
    interpAt xs h ≤ sampleAt xs (⌊h⌋₊ + 1) := by
  unfold interpAt
  have hd : 0 ≤ sampleAt xs (⌊h⌋₊ + 1) - sampleAt xs ⌊h⌋₊ :=
    sub_nonneg.mpr (sampleAt_mono xs (Nat.le_succ _))
  have hfrac : h - (⌊h⌋₊ : ℝ) ≤ 1 := by
    have := Nat.lt_floor_add_one h
    push_cast at this ⊢
    linarith
  have := mul_le_mul_of_nonneg_right hfrac hd
  linarith

theorem floor_le_interpAt (xs : List ℝ) {h : ℝ} (h0 : 0 ≤ h) :
    sampleAt xs ⌊h⌋₊ ≤ interpAt xs h := by
  unfold interpAt
  have hd : 0 ≤ sampleAt xs (⌊h⌋₊ + 1) - sampleAt xs ⌊h⌋₊ :=
    sub_nonneg.mpr (sampleAt_mono xs (Nat.le_succ _))
  have hfrac : 0 ≤ h - (⌊h⌋₊ : ℝ) := sub_nonneg.mpr (Nat.floor_le h0)
  nlinarith

theorem interpAt_mono (xs : List ℝ) {h1 h2 : ℝ} (hle : h1 ≤ h2) :
    interpAt xs h1 ≤ interpAt xs h2 := by
  have hfl : ⌊h1⌋₊ ≤ ⌊h2⌋₊ := Nat.floor_le_floor hle
  rcases eq_or_lt_of_le hfl with heq | hlt
  · unfold interpAt
    rw [← heq]
    have hd : 0 ≤ sampleAt xs (⌊h1⌋₊ + 1) - sampleAt xs ⌊h1⌋₊ :=
      sub_nonneg.mpr (sampleAt_mono xs (Nat.le_succ _))
    have := mul_le_mul_of_nonneg_right (sub_le_sub_right hle ((⌊h1⌋₊ : ℝ))) hd
    linarith
  · have h2pos : 0 ≤ h2 := by
      by_contra hneg
      push_neg at hneg
      have : ⌊h2⌋₊ = 0 := Nat.floor_of_nonpos hneg.le
      omega
    calc interpAt xs h1 ≤ sampleAt xs (⌊h1⌋₊ + 1) := interpAt_le_next xs h1
      _ ≤ sampleAt xs ⌊h2⌋₊ := sampleAt_mono xs (by omega)
      _ ≤ interpAt xs h2 := floor_le_interpAt xs h2pos

theorem nppercentile_mono (xs : List ℝ) {q1 q2 : ℝ} (hq : q1 ≤ q2) :
    nppercentile xs q1 ≤ nppercentile xs q2 := by
  rcases Nat.eq_zero_or_pos xs.length with hn | hn
  · have hx : xs = [] := List.length_eq_zero.mp hn
    subst hx
    simp [nppercentile, interpAt, sampleAt, sortedSample]
  · unfold nppercentile
    apply interpAt_mono
    have hc : (0 : ℝ) ≤ (xs.length : ℝ) - 1 := by
      have : (1 : ℝ) ≤ (xs.length : ℝ) := by exact_mod_cast hn
      linarith
    have := mul_le_mul_of_nonneg_right hq hc
    linarith

/-- Value stored under one key of a per-game environment dictionary in
`build_env_state` (modules/sims_tool.py lines 664-677): either a scalar
(total, spread) or a per-team table (points, scoring multipliers,
volatility z-scores). -/
inductive EnvVal where
  | scalar : ℝ → EnvVal
  | table : List (String × ℝ) → EnvVal

/-- Embedding of the per-game dictionary built by `build_env_state`
(modules/sims_tool.py lines 631-677). `totalDraw` and `spreadDraw` are
the `rng.normal` draws for the game total and spread. The entry holds
exactly the five keys written by the source: `points`, `total_sim`,
`spread_sim`, `team_scoring_mult`, `volatility_z`. -/
noncomputable def buildEnvEntry (t1 t2 : String) (t1Base t2Base : ℝ)
    (totalDraw spreadDraw : ℝ) (strength1 strength2 alphaMatchup : ℝ)
    (volZ1 volZ2 : ℝ) : List (String × EnvVal) :=
  let totalSim := max totalDraw 10.0
  let spreadSim := spreadDraw
  let t1PointsA := (totalSim + spreadSim) / 2
  let t2PointsA := (totalSim - spreadSim) / 2
  let t1PointsB := t1PointsA * (1 + alphaMatchup * strength1)
  let t2PointsB := t2PointsA * (1 + alphaMatchup * strength2)
  let renorm := totalSim / max (t1PointsB + t2PointsB) 1.0
  let t1Points := t1PointsB * renorm
  let t2Points := t2PointsB * renorm
  [("points", EnvVal.table [(t1, t1Points), (t2, t2Points)]),
   ("total_sim", EnvVal.scalar totalSim),
   ("spread_sim", EnvVal.scalar spreadSim),
   ("team_scoring_mult", EnvVal.table
     [(t1, t1Points / max t1Base 1.0), (t2, t2Points / max t2Base 1.0)]),
   ("volatility_z", EnvVal.table [(t1, volZ1), (t2, volZ2)])]

/-- Embedding of the DST + spread correlation block of the simulation loop
(modules/sims_tool.py lines 974-990) for one DST player. The source reads
`env_state[game_id]['spread']`; a missing dictionary key is a Python
`KeyError`, modelled as `Except.error`. `boostDraw` and `penaltyDraw`
model the `rng.uniform(1.1, 1.2)` and `rng.uniform(0.8, 0.9)` draws. -/
noncomputable def dstSpreadStep (entry : List (String × EnvVal))
    (playerTeam : String) (score : ℝ) (boostDraw penaltyDraw : ℝ) :
    Except String ℝ :=
  match entry.lookup "spread" with
  | none => Except.error "KeyError: spread"
  | some (EnvVal.table _) => Except.error "TypeError: spread"
  | some (EnvVal.scalar spread) =>
    match entry.lookup "team_scoring_mult" with
    | some (EnvVal.table tbl) =>
      let teamNames := tbl.map Prod.fst
      let teamSpread := if teamNames.head? = some playerTeam then -spread else spread
      if teamSpread < -3 then Except.ok (score * boostDraw)
      else if teamSpread > 3 then Except.ok (score * penaltyDraw)
      else Except.ok score
    | _ => Except.error "KeyError: team_scoring_mult"

/-- One row of the players table consumed by `generate_field_lineups`
(modules/sims_tool.py): name, position, salary and projected ownership. -/
structure Player where
  name : String
  position : String
  salary : ℤ
  projOwn : ℚ
deriving DecidableEq, Repr

/-- Position pool with positive projected ownership, one of the filters at
modules/sims_tool.py lines 761-765. -/
def posPool (playersDf : List Player) (pos : String) : List Player :=
  playersDf.filter (fun p => p.position == pos && decide (0 < p.projOwn))

/-- One ownership-weighted `rng.choice` from a pool, modelled by an index
into the pool: it returns an element of the pool and fails exactly when
the pool is empty (numpy raises, caught by the `except` and skipped). -/
def pick (pool : List Player) (i : ℕ) : Option Player :=
  pool[i % pool.length]?

/-- Pool with some already-drawn names removed; models `replace=False`
and the `~isin` filters building the FLEX pool. -/
def removeNames (pool : List Player) (names : List String) : List Player :=
  pool.filter (fun p => !(names.contains p.name))

/-- Salary lookup through `player_salary = dict(zip(Name, Salary))` with
`get(p, 0)`; dict construction keeps the last occurrence of a name. -/
def salaryOf (playersDf : List Player) (name : String) : ℤ :=
  ((playersDf.reverse.find? (fun p => p.name == name)).map Player.salary).getD 0

/-- Total salary of a lineup as computed at modules/sims_tool.py line 806. -/
def lineupSalary (playersDf : List Player) (lineup : List Player) : ℤ :=
  (lineup.map (fun p => salaryOf playersDf p.name)).sum

/-- One attempt of the lineup-generation loop (modules/sims_tool.py lines
781-812): draw 1 QB, 2 distinct RBs, 3 distinct WRs, 1 TE, 1 DST, then a
FLEX from the remaining RBs/WRs/TEs, and keep the lineup only when the
total salary is at most 50000. Any failed draw (empty pool) skips the
attempt, mirroring the `except: continue`. -/
def attemptLineup (playersDf qbs rbs wrs tes dsts : List Player)
    (draw : ℕ → ℕ) : Option (List Player) := do
  let qb ← pick qbs (draw 0)
  let rb1 ← pick rbs (draw 1)
  let rb2 ← pick (removeNames rbs [rb1.name]) (draw 2)
  let wr1 ← pick wrs (draw 3)
  let wr2 ← pick (removeNames wrs [wr1.name]) (draw 4)
  let wr3 ← pick (removeNames wrs [wr1.name, wr2.name]) (draw 5)
  let te ← pick tes (draw 6)
  let dst ← pick dsts (draw 7)
  let flexPool := removeNames rbs [rb1.name, rb2.name] ++
    removeNames wrs [wr1.name, wr2.name, wr3.name] ++ removeNames tes [te.name]
  if flexPool.isEmpty then none
  else do
    let flex ← pick flexPool (draw 8)
    let lineup := [qb, rb1, rb2, wr1, wr2, wr3, te, flex, dst]
    if lineupSalary playersDf lineup ≤ 50000 then some lineup else none

/-- The `while len(lineups) < field_size_sim and attempts < max_attempts`
loop of `generate_field_lineups`, with the remaining attempt budget as
fuel. -/
def genLoop (playersDf qbs rbs wrs tes dsts : List Player)
    (oracle : ℕ → ℕ → ℕ) (fieldSizeSim : ℕ) :
    ℕ → ℕ → List (List Player) → List (List Player)
  | 0, _, acc => acc
  | fuel + 1, attemptIdx, acc =>
    if acc.length < fieldSizeSim then
      let acc2 :=
        match attemptLineup playersDf qbs rbs wrs tes dsts (oracle attemptIdx) with
        | some lineup => acc ++ [lineup]
        | none => acc
      genLoop playersDf qbs rbs wrs tes dsts oracle fieldSizeSim fuel
        (attemptIdx + 1) acc2
    else acc

/-- Embedding of `generate_field_lineups` (modules/sims_tool.py lines
753-814). `oracle a k` supplies the k-th random index of attempt `a`;
`max_attempts = field_size_sim * 5`. -/
def generateFieldLineups (playersDf : List Player) (fieldSizeSim : ℕ)
    (oracle : ℕ → ℕ → ℕ) : List (List Player) :=
  genLoop playersDf (posPool playersDf "QB") (posPool playersDf "RB")
    (posPool playersDf "WR") (posPool playersDf "TE") (posPool playersDf "DST")
    oracle fieldSizeSim (fieldSizeSim * 5) 0 []

/-- C1: for every slate player (median projection positive after the
upstream `OWS_Median_Proj > 0` filter, adjusted std at least `MIN_STD`
after the upstream clip), `calc_lognormal_params` computes
`mu_log = ln(max(OWS_Median_Proj, 0.1))` and
`sigma_log = clip(ln(1 + adj_std / (OWS_Median_Proj + 0.1)), 0.2, 1.5)`. -/
theorem c1_lognormal_params (proj adjStd : ℝ) (hproj : 0 < proj)
    (hstd : 3 ≤ adjStd) :
    (calcLognormalParams proj adjStd).1 = Real.log (max proj 0.1) ∧
    (calcLognormalParams proj adjStd).2 =
      npclip (Real.log (1 + adjStd / (proj + 0.1))) 0.2 1.5 := by
  unfold calcLognormalParams
  simp only [ROOConfig.EPS, ROOConfig.MIN_SIGMA_LOG, ROOConfig.MAX_SIGMA_LOG]
  refine ⟨trivial, ?_⟩
  rcases le_or_lt (0.1 : ℝ) proj with hc | hc
  · rw [max_eq_left hc]
  · rw [max_eq_right hc.le]
    have hp1 : (0 : ℝ) < proj + 0.1 := by linarith
    have h1 : (16 : ℝ) ≤ 1 + adjStd / (0.1 + 0.1) := by
      have h15 : (15 : ℝ) ≤ adjStd / (0.1 + 0.1) := by
        rw [le_div_iff (by norm_num : (0 : ℝ) < 0.1 + 0.1)]
        linarith
      linarith
    have h2 : adjStd / (0.1 + 0.1) ≤ adjStd / (proj + 0.1) := by
      rw [div_le_div_iff (by norm_num) hp1]
      nlinarith
    have h3 : (16 : ℝ) ≤ 1 + adjStd / (proj + 0.1) := by linarith
    rw [sigma_clip_sat h1, sigma_clip_sat h3]

/-- Witness for C1 at the spec scenario: `OWS_Median_Proj = 20.0`,
`adj_std = 6.0` give `mu_log = ln 20` and the unclipped
`sigma_log = ln(1 + 6/20.1)`. -/
theorem c1_lognormal_params_witness :
    (0 : ℝ) < 20 ∧ (3 : ℝ) ≤ 6 ∧
    (calcLognormalParams 20 6).1 = Real.log 20 ∧
    (calcLognormalParams 20 6).2 = Real.log (1 + 6 / 20.1) := by
  have h := c1_lognormal_params 20 6 (by norm_num) (by norm_num)
  refine ⟨by norm_num, by norm_num, ?_, ?_⟩
  · rw [h.1]
    norm_num
  · rw [h.2]
    have hx : (1 : ℝ) + 6 / (20 + 0.1) = 87 / 67 := by norm_num
    have hx2 : (1 : ℝ) + 6 / 20.1 = 87 / 67 := by norm_num
    have hub : Real.log ((87 : ℝ) / 67) ≤ 1.5 :=
      le_trans (Real.log_le_sub_one_of_pos (by norm_num)) (by norm_num)
    have hlb : (0.2 : ℝ) ≤ Real.log ((87 : ℝ) / 67) := by
      have h1 := Real.log_le_sub_one_of_pos
        (show (0 : ℝ) < ((87 : ℝ) / 67)⁻¹ by norm_num)
      rw [Real.log_inv] at h1
      have h2 : ((87 : ℝ) / 67)⁻¹ = 67 / 87 := by norm_num
      rw [h2] at h1
      linarith
    rw [hx, hx2, npclip_eq_of_le_of_le hlb hub]

/-- C2: the effective standard deviation of `build_player_volatility` uses
the player's own std at 4 or more games, the linear blend
`(g/4) * player_std + (1 - g/4) * position_std` at 2-3 games, and 1.2
times the position std below 2 games; the blend weight `g/4` is strictly
increasing in the game count and equals 1 at exactly
`MIN_GAMES_FOR_PLAYER = 4` games. -/
theorem c2_effective_std_cases (g : ℕ) (histStd posStd : ℝ) :
    (4 ≤ g → calcEffectiveStd g histStd posStd = histStd) ∧
    (2 ≤ g → g < 4 → calcEffectiveStd g histStd posStd =
      ((g : ℝ) / 4) * histStd + (1 - (g : ℝ) / 4) * posStd) ∧
    (g < 2 → calcEffectiveStd g histStd posStd = 1.2 * posStd) ∧
    (∀ g1 g2 : ℕ, g1 < g2 → blendWeight g1 < blendWeight g2) ∧
    blendWeight ROOConfig.MIN_GAMES_FOR_PLAYER = 1 := by
  refine ⟨?_, ?_, ?_, ?_, ?_⟩
  · intro h
    simp [calcEffectiveStd, ROOConfig.MIN_GAMES_FOR_PLAYER, h]
  · intro h2 h4
    have hnot4 : ¬ (4 : ℕ) ≤ g := by omega
    simp [calcEffectiveStd, ROOConfig.MIN_GAMES_FOR_PLAYER, hnot4, h2, blendWeight]
  · intro h
    have hnot4 : ¬ (4 : ℕ) ≤ g := by omega
    have h2 : ¬ 2 ≤ g := by omega
    simp [calcEffectiveStd, ROOConfig.MIN_GAMES_FOR_PLAYER, hnot4, h2]
    ring
  · intro g1 g2 h
    unfold blendWeight
    simp only [ROOConfig.MIN_GAMES_FOR_PLAYER, Nat.cast_ofNat]
    have : (g1 : ℝ) < (g2 : ℝ) := by exact_mod_cast h
    linarith
  · unfold blendWeight
    simp [ROOConfig.MIN_GAMES_FOR_PLAYER]

/-- Witness for C2 at a 3-game player with own std 2 and position std 4:
the blend gives 2.5. -/
theorem c2_effective_std_cases_witness :
    (2 ≤ 3 ∧ 3 < 4) ∧ calcEffectiveStd 3 2 4 = 2.5 := by
  refine ⟨⟨by norm_num, by norm_num⟩, ?_⟩
  have h := (c2_effective_std_cases 3 2 4).2.1 (by norm_num) (by norm_num)
  rw [h]
  norm_num

/-- Helper: a team with no PROE rows gets weighted PROE 0. -/
theorem calculateWeightedProe_eq_zero {t : String} {tbl : List ProeRow}
    (h : tbl.filter (fun r => r.posteam == abbrevFull t) = []) :
    calculateWeightedProe t tbl 8 = 0 := by
  simp only [calculateWeightedProe]
  rw [h]
  simp

/-- C3: a player whose team offensive metrics, opponent allowed metrics
and ITT all equal the league averages, with no PROE data (table absent or
no rows for the team), gets matchup multiplier exactly 1.0, provided the
league-average ratio denominators are nonzero. -/
theorem c3_neutral_matchup (row : MatchupRow) (la : LeagueAvgs)
    (weeklyProe : Option (List ProeRow))
    (hoe : row.teamEpaPlay.getD la.epaPlay = la.epaPlay)
    (hox : row.teamExplosivePlayRate.getD la.explosivePlayRate =
      la.explosivePlayRate)
    (hop : row.teamPointsPerDrive.getD la.pointsPerDrive = la.pointsPerDrive)
    (hde : row.oppEpaPlayAllowed.getD la.epaPlayAllowed = la.epaPlayAllowed)
    (hdx : row.oppExplosivePlayRateAllowed.getD la.explosivePlayRateAllowed =
      la.explosivePlayRateAllowed)
    (hdp : row.oppPointsPerDriveAllowed.getD la.pointsPerDriveAllowed =
      la.pointsPerDriveAllowed)
    (hitt : row.itt.getD la.impliedTotal = la.impliedTotal)
    (hex : la.explosivePlayRate ≠ 0) (hpd : la.pointsPerDrive ≠ 0)
    (hexA : la.explosivePlayRateAllowed ≠ 0)
    (hpdA : la.pointsPerDriveAllowed ≠ 0)
    (hproe : ∀ tbl t, weeklyProe = some tbl → row.team = some t →
      tbl.filter (fun r => r.posteam == abbrevFull t) = []) :
    computeMatchupMultiplier row la weeklyProe = 1 := by
  simp only [computeMatchupMultiplier]
  rw [hoe, hox, hop, hde, hdx, hdp, hitt]
  have hit : (if la.impliedTotal > 0 then la.impliedTotal / la.impliedTotal
      else 1.0) = 1 := by
    split
    · exact div_self (ne_of_gt (by assumption))
    · norm_num
  have hadj : (match weeklyProe, row.team with
      | some tbl, some t => calculateWeightedProe t tbl 8 * 0.67
      | _, _ => (0.0 : ℝ)) = 0 := by
    rcases hw : weeklyProe with _ | tbl
    · rcases ht : row.team with _ | t <;> norm_num
    · rcases ht : row.team with _ | t
      · norm_num
      · have hz := calculateWeightedProe_eq_zero (hproe tbl t hw ht)
        simp [hz]
  rw [hit, hadj]
  simp only [sub_self, zero_mul, add_zero, div_self hex, div_self hpd,
    div_self hexA, div_self hpdA]
  norm_num [npclip, ROOConfig.MATCHUP_VOL_MIN, ROOConfig.MATCHUP_VOL_MAX]

/-- Witness for C3 at concrete league averages and a row holding exactly
those averages, with no PROE table supplied. -/
theorem c3_neutral_matchup_witness :
    ((0.1 : ℝ) ≠ 0 ∧ (2.0 : ℝ) ≠ 0 ∧ (0.11 : ℝ) ≠ 0 ∧ (2.1 : ℝ) ≠ 0) ∧
    computeMatchupMultiplier
      ⟨some 0.05, some 0.1, some 2.0, some 0.02, some 0.11, some 2.1,
        some 24, some "KC"⟩
      ⟨0.05, 0.1, 2.0, 0.02, 0.11, 2.1, 24⟩ none = 1 := by
  refine ⟨⟨by norm_num, by norm_num, by norm_num, by norm_num⟩, ?_⟩
  exact c3_neutral_matchup _ _ _ rfl rfl rfl rfl rfl rfl rfl
    (by norm_num) (by norm_num) (by norm_num) (by norm_num)
    (fun tbl t h1 h2 => by cases h1)

/-- C4: the clipped pipeline quantities respect their configured bounds
for every input: the matchup multiplier lies in [0.8, 1.3], the adjusted
std in [MIN_STD, MAX_STD] = [3, 20] and sigma_log in [0.2, 1.5]. -/
theorem c4_bounds (row : MatchupRow) (la : LeagueAvgs)
    (weeklyProe : Option (List ProeRow)) (effectiveStd medianProj : ℝ) :
    0.8 ≤ computeMatchupMultiplier row la weeklyProe ∧
    computeMatchupMultiplier row la weeklyProe ≤ 1.3 ∧
    3 ≤ buildAdjStd effectiveStd (computeMatchupMultiplier row la weeklyProe) ∧
    buildAdjStd effectiveStd (computeMatchupMultiplier row la weeklyProe) ≤ 20 ∧
    0.2 ≤ (calcLognormalParams medianProj
      (buildAdjStd effectiveStd (computeMatchupMultiplier row la weeklyProe))).2 ∧
    (calcLognormalParams medianProj
      (buildAdjStd effectiveStd (computeMatchupMultiplier row la weeklyProe))).2
      ≤ 1.5 := by
  refine ⟨?_, ?_, ?_, ?_, ?_, ?_⟩
  · simp only [computeMatchupMultiplier, ROOConfig.MATCHUP_VOL_MIN,
      ROOConfig.MATCHUP_VOL_MAX]
    exact le_npclip _ _ _ (by norm_num)
  · simp only [computeMatchupMultiplier, ROOConfig.MATCHUP_VOL_MIN,
      ROOConfig.MATCHUP_VOL_MAX]
    exact npclip_le _ _ _
  · have h := le_npclip (effectiveStd * computeMatchupMultiplier row la weeklyProe)
      3.0 20.0 (by norm_num)
    simp only [buildAdjStd, ROOConfig.MIN_STD, ROOConfig.MAX_STD]
    linarith
  · have h := npclip_le (effectiveStd * computeMatchupMultiplier row la weeklyProe)
      3.0 20.0
    simp only [buildAdjStd, ROOConfig.MIN_STD, ROOConfig.MAX_STD]
    linarith
  · simp only [calcLognormalParams, ROOConfig.MIN_SIGMA_LOG,
      ROOConfig.MAX_SIGMA_LOG]
    exact le_npclip _ _ _ (by norm_num)
  · simp only [calcLognormalParams, ROOConfig.MIN_SIGMA_LOG,
      ROOConfig.MAX_SIGMA_LOG]
    exact npclip_le _ _ _

/-- C5: for every player column of the outcome matrix produced by
`run_simulations`, the linear-interpolation percentiles are monotone in
the percentile rank:
P10 ≤ P15 ≤ P25 ≤ P50 ≤ P75 ≤ P85 ≤ P90 ≤ P95. -/
theorem c5_percentile_chain (globalState nPlayers nSims j : ℕ)
    (muLog sigmaLog : ℕ → ℝ) :
    simPercentileColumn (runSimulations globalState nPlayers muLog sigmaLog)
        nSims j 10 ≤
      simPercentileColumn (runSimulations globalState nPlayers muLog sigmaLog)
        nSims j 15 ∧
    simPercentileColumn (runSimulations globalState nPlayers muLog sigmaLog)
        nSims j 15 ≤
      simPercentileColumn (runSimulations globalState nPlayers muLog sigmaLog)
        nSims j 25 ∧
    simPercentileColumn (runSimulations globalState nPlayers muLog sigmaLog)
        nSims j 25 ≤
      simPercentileColumn (runSimulations globalState nPlayers muLog sigmaLog)
        nSims j 50 ∧
    simPercentileColumn (runSimulations globalState nPlayers muLog sigmaLog)
        nSims j 50 ≤
      simPercentileColumn (runSimulations globalState nPlayers muLog sigmaLog)
        nSims j 75 ∧
    simPercentileColumn (runSimulations globalState nPlayers muLog sigmaLog)
        nSims j 75 ≤
      simPercentileColumn (runSimulations globalState nPlayers muLog sigmaLog)
        nSims j 85 ∧
    simPercentileColumn (runSimulations globalState nPlayers muLog sigmaLog)
        nSims j 85 ≤
      simPercentileColumn (runSimulations globalState nPlayers muLog sigmaLog)
        nSims j 90 ∧
    simPercentileColumn (runSimulations globalState nPlayers muLog sigmaLog)
        nSims j 90 ≤
      simPercentileColumn (runSimulations globalState nPlayers muLog sigmaLog)
        nSims j 95 := by
  refine ⟨?_, ?_, ?_, ?_, ?_, ?_, ?_⟩ <;>
    exact nppercentile_mono _ (by norm_num)

/-- C6: the outcome matrix of `run_simulations` is a pure function of the
configured seed and the player parameter vectors: two runs with identical
mu and sigma vectors produce identical matrices and identical percentile
columns, whatever the prior global generator state, because
`np.random.seed(ROOConfig.RANDOM_SEED)` reinitializes the generator at
entry. -/
theorem c6_determinism (g1 g2 nPlayers nSims j : ℕ)
    (mu1 sigma1 mu2 sigma2 : ℕ → ℝ)
    (hmu : mu1 = mu2) (hsigma : sigma1 = sigma2) :
    (∀ i k, runSimulations g1 nPlayers mu1 sigma1 i k =
      runSimulations g2 nPlayers mu2 sigma2 i k) ∧
    (∀ q : ℝ, simPercentileColumn (runSimulations g1 nPlayers mu1 sigma1)
        nSims j q =
      simPercentileColumn (runSimulations g2 nPlayers mu2 sigma2) nSims j q) := by
  subst hmu
  subst hsigma
  exact ⟨fun i k => rfl, fun q => rfl⟩

/-- Witness for C6: two runs from distinct prior generator states but the
same parameters agree at a concrete matrix entry. -/
theorem c6_determinism_witness :
    ((fun _ : ℕ => (0 : ℝ)) = (fun _ : ℕ => (0 : ℝ))) ∧
    runSimulations 0 2 (fun _ => 0) (fun _ => 0) 5 1 =
      runSimulations 999 2 (fun _ => 0) (fun _ => 0) 5 1 :=
  ⟨rfl, (c6_determinism 0 999 2 1 0 (fun _ => 0) (fun _ => 0) (fun _ => 0)
    (fun _ => 0) rfl rfl).1 5 1⟩

/-- C7 counterexample: `get_effective_std` for a player with no merged
volatility and a position absent from `pos_defaults` silently returns the
constant 5.0 instead of failing; no DataValidationError exists in the
code. -/
theorem c7_counterexample : getEffectiveStd none "K" [] = 5 := by
  simp [getEffectiveStd]
  norm_num

/-- C7 amended: whenever the volatility merge produced no value and the
position has no entry in the position-default table, `get_effective_std`
returns the default constant 5.0 (and never raises). -/
theorem c7_default_substitution (mergedStd : Option ℝ) (position : String)
    (posDefaults : List (String × ℝ))
    (hmiss : mergedStd = none) (hpos : posDefaults.lookup position = none) :
    getEffectiveStd mergedStd position posDefaults = 5 := by
  subst hmiss
  simp only [getEffectiveStd, hpos]
  norm_num

/-- Witness for the amended C7 at a concrete unmatched position. -/
theorem c7_default_substitution_witness :
    ((none : Option ℝ) = none ∧
      ([(("QB" : String), (3 : ℝ))].lookup "ZZZ") = none) ∧
    getEffectiveStd none "ZZZ" [("QB", 3)] = 5 := by
  have hlook : ([(("QB" : String), (3 : ℝ))].lookup "ZZZ") = none := by
    simp [List.lookup]
  exact ⟨⟨rfl, hlook⟩, c7_default_substitution none "ZZZ" [("QB", 3)] rfl hlook⟩

/-- C8 (code bug evidence): in the full pipeline a team absent from
`sharp_offense` gets its offensive metrics filled with 0 (the
`fillna(0)` at roo_simulator.py lines 758-766), so with league averages
EPA = 0.05, explosive rate = 0.1, points/drive = 2.0 and a
league-average opponent and ITT, the multiplier is 103/120, not the
neutral value 1 that the same player would get if the missing metrics
defaulted to the league averages. -/
theorem c8_missing_team_not_neutral :
    computeMatchupMultiplier
        (slateRowMetrics [] [("Bears", ⟨0.02, 0.11, 2.1⟩)]
          "MissingTeam" "Bears" 24 "XX")
        ⟨0.05, 0.1, 2.0, 0.02, 0.11, 2.1, 24⟩ none = 103 / 120 ∧
    computeMatchupMultiplier
        ⟨some 0.05, some 0.1, some 2.0, some 0.02, some 0.11, some 2.1,
          some 24, some "XX"⟩
        ⟨0.05, 0.1, 2.0, 0.02, 0.11, 2.1, 24⟩ none = 1 ∧
    (103 / 120 : ℝ) ≠ 1 := by
  refine ⟨?_, ?_, by norm_num⟩
  · simp only [slateRowMetrics, computeMatchupMultiplier, List.lookup]
    norm_num [npclip, ROOConfig.MATCHUP_VOL_MIN, ROOConfig.MATCHUP_VOL_MAX]
  · simp only [computeMatchupMultiplier]
    norm_num [npclip, ROOConfig.MATCHUP_VOL_MIN, ROOConfig.MATCHUP_VOL_MAX]

/-- C9 (code bug evidence): the DST + spread correlation step reads the
key `spread` from the per-game environment dictionary, but
`build_env_state` stores the simulated spread under `spread_sim`, so the
lookup fails and the step raises a KeyError for every DST whose game has
a simulated environment, instead of applying the boost/penalty. -/
theorem c9_dst_spread_keyerror (t1 t2 : String) (t1Base t2Base : ℝ)
    (totalDraw spreadDraw strength1 strength2 alphaMatchup volZ1 volZ2 : ℝ)
    (playerTeam : String) (score boostDraw penaltyDraw : ℝ) :
    dstSpreadStep
        (buildEnvEntry t1 t2 t1Base t2Base totalDraw spreadDraw strength1
          strength2 alphaMatchup volZ1 volZ2)
        playerTeam score boostDraw penaltyDraw =
      Except.error "KeyError: spread" := by
  simp [buildEnvEntry, dstSpreadStep, List.lookup]

theorem pick_mem {pool : List Player} {i : ℕ} {p : Player}
    (h : pick pool i = some p) : p ∈ pool :=
  List.getElem?_mem h

theorem mem_posPool {df : List Player} {pos : String} {p : Player}
    (h : p ∈ posPool df pos) : p ∈ df ∧ p.position = pos ∧ 0 < p.projOwn := by
  unfold posPool at h
  rw [List.mem_filter] at h
  obtain ⟨h1, h2⟩ := h
  simp at h2
  exact ⟨h1, h2.1, h2.2⟩

theorem mem_removeNames {pool : List Player} {names : List String} {p : Player}
    (h : p ∈ removeNames pool names) : p ∈ pool ∧ p.name ∉ names := by
  unfold removeNames at h
  rw [List.mem_filter] at h
  refine ⟨h.1, ?_⟩
  have h2 := h.2
  simp at h2
  exact h2

/-- Helper: when all names in the players table are distinct, two of its
members with different positions have different names. -/
theorem name_inj {df : List Player} (hnodup : (df.map Player.name).Nodup)
    {a b : Player} (ha : a ∈ df) (hb : b ∈ df)
    (hpos : a.position ≠ b.position) : a.name ≠ b.name := fun h =>
  hpos (congrArg Player.position (List.inj_on_of_nodup_map hnodup ha hb h))

/-- What C10 asserts of a single generated lineup: exactly the roster
shape 1 QB, 2 RB, 3 WR, 1 TE, 1 FLEX (RB/WR/TE), 1 DST, with 9 distinct
names, every player from the slate with positive projected ownership, and
total salary at most 50000. -/
def LineupOK (df : List Player) (lineup : List Player) : Prop :=
  (∃ qb rb1 rb2 wr1 wr2 wr3 te flex dst : Player,
    lineup = [qb, rb1, rb2, wr1, wr2, wr3, te, flex, dst] ∧
    qb.position = "QB" ∧ rb1.position = "RB" ∧ rb2.position = "RB" ∧
    wr1.position = "WR" ∧ wr2.position = "WR" ∧ wr3.position = "WR" ∧
    te.position = "TE" ∧
    (flex.position = "RB" ∨ flex.position = "WR" ∨ flex.position = "TE") ∧
    dst.position = "DST") ∧
  lineup.length = 9 ∧
  (lineup.map Player.name).Nodup ∧
  (∀ p ∈ lineup, p ∈ df ∧ 0 < p.projOwn) ∧
  lineupSalary df lineup ≤ 50000

/-- Helper: a successful attempt of the generation loop over the position
pools of a duplicate-free players table yields a lineup satisfying all
the C10 invariants. -/
theorem attemptLineup_ok {df : List Player}
    (hnodup : (df.map Player.name).Nodup) {draw : ℕ → ℕ} {L : List Player}
    (h : attemptLineup df (posPool df "QB") (posPool df "RB")
      (posPool df "WR") (posPool df "TE") (posPool df "DST") draw = some L) :
    LineupOK df L := by
  simp only [attemptLineup, Option.bind_eq_bind, Option.bind_eq_some] at h
  obtain ⟨qb, hqb, h⟩ := h
  obtain ⟨rb1, hrb1, h⟩ := h
  obtain ⟨rb2, hrb2, h⟩ := h
  obtain ⟨wr1, hwr1, h⟩ := h
  obtain ⟨wr2, hwr2, h⟩ := h
  obtain ⟨wr3, hwr3, h⟩ := h
  obtain ⟨te, hte, h⟩ := h
  obtain ⟨dst, hdst, h⟩ := h
  split at h
  · exact absurd h (by simp)
  · rw [Option.bind_eq_some] at h
    obtain ⟨flex, hflex, h⟩ := h
    have hflexmem := pick_mem hflex
    split at h
    · rename_i hsal
      have hL := Option.some.inj h
      subst hL
      -- membership and position facts for the eight direct draws
      obtain ⟨hqbdf, hqbpos, hqbown⟩ := mem_posPool (pick_mem hqb)
      obtain ⟨hrb1df, hrb1pos, hrb1own⟩ := mem_posPool (pick_mem hrb1)
      obtain ⟨hrb2pool, hrb2ex⟩ := mem_removeNames (pick_mem hrb2)
      obtain ⟨hrb2df, hrb2pos, hrb2own⟩ := mem_posPool hrb2pool
      obtain ⟨hwr1df, hwr1pos, hwr1own⟩ := mem_posPool (pick_mem hwr1)
      obtain ⟨hwr2pool, hwr2ex⟩ := mem_removeNames (pick_mem hwr2)
      obtain ⟨hwr2df, hwr2pos, hwr2own⟩ := mem_posPool hwr2pool
      obtain ⟨hwr3pool, hwr3ex⟩ := mem_removeNames (pick_mem hwr3)
      obtain ⟨hwr3df, hwr3pos, hwr3own⟩ := mem_posPool hwr3pool
      obtain ⟨htedf, htepos, hteown⟩ := mem_posPool (pick_mem hte)
      obtain ⟨hdstdf, hdstpos, hdstown⟩ := mem_posPool (pick_mem hdst)
      simp only [List.mem_cons, List.not_mem_nil, or_false,
        not_or] at hrb2ex hwr2ex hwr3ex
      -- facts for the FLEX draw, by cases on which pool it came from
      have hflexfacts : flex ∈ df ∧ 0 < flex.projOwn ∧
          (flex.position = "RB" ∨ flex.position = "WR" ∨
            flex.position = "TE") ∧
          flex.name ≠ qb.name ∧ flex.name ≠ rb1.name ∧
          flex.name ≠ rb2.name ∧ flex.name ≠ wr1.name ∧
          flex.name ≠ wr2.name ∧ flex.name ≠ wr3.name ∧
          flex.name ≠ te.name ∧ flex.name ≠ dst.name := by
        rcases List.mem_append.mp hflexmem with hm | hm
        rcases List.mem_append.mp hm with hm2 | hm2
        · obtain ⟨hpool, hnot⟩ := mem_removeNames hm2
          obtain ⟨hdf, hpos, hown⟩ := mem_posPool hpool
          simp only [List.mem_cons, List.not_mem_nil, or_false, not_or] at hnot
          refine ⟨hdf, hown, Or.inl hpos, ?_, hnot.1, hnot.2, ?_, ?_, ?_, ?_, ?_⟩
          · exact name_inj hnodup hdf hqbdf (by rw [hpos, hqbpos]; decide)
          · exact name_inj hnodup hdf hwr1df (by rw [hpos, hwr1pos]; decide)
          · exact name_inj hnodup hdf hwr2df (by rw [hpos, hwr2pos]; decide)
          · exact name_inj hnodup hdf hwr3df (by rw [hpos, hwr3pos]; decide)
          · exact name_inj hnodup hdf htedf (by rw [hpos, htepos]; decide)
          · exact name_inj hnodup hdf hdstdf (by rw [hpos, hdstpos]; decide)
        · obtain ⟨hpool, hnot⟩ := mem_removeNames hm2
          obtain ⟨hdf, hpos, hown⟩ := mem_posPool hpool
          simp only [List.mem_cons, List.not_mem_nil, or_false, not_or] at hnot
          refine ⟨hdf, hown, Or.inr (Or.inl hpos), ?_, ?_, ?_,
            hnot.1, hnot.2.1, hnot.2.2, ?_, ?_⟩
          · exact name_inj hnodup hdf hqbdf (by rw [hpos, hqbpos]; decide)
          · exact name_inj hnodup hdf hrb1df (by rw [hpos, hrb1pos]; decide)
          · exact name_inj hnodup hdf hrb2df (by rw [hpos, hrb2pos]; decide)
          · exact name_inj hnodup hdf htedf (by rw [hpos, htepos]; decide)
          · exact name_inj hnodup hdf hdstdf (by rw [hpos, hdstpos]; decide)
        · obtain ⟨hpool, hnot⟩ := mem_removeNames hm
          obtain ⟨hdf, hpos, hown⟩ := mem_posPool hpool
          simp only [List.mem_cons, List.not_mem_nil, or_false, not_or] at hnot
          refine ⟨hdf, hown, Or.inr (Or.inr hpos), ?_, ?_, ?_, ?_, ?_, ?_,
            hnot, ?_⟩
          · exact name_inj hnodup hdf hqbdf (by rw [hpos, hqbpos]; decide)
          · exact name_inj hnodup hdf hrb1df (by rw [hpos, hrb1pos]; decide)
          · exact name_inj hnodup hdf hrb2df (by rw [hpos, hrb2pos]; decide)
          · exact name_inj hnodup hdf hwr1df (by rw [hpos, hwr1pos]; decide)
          · exact name_inj hnodup hdf hwr2df (by rw [hpos, hwr2pos]; decide)
          · exact name_inj hnodup hdf hwr3df (by rw [hpos, hwr3pos]; decide)
          · exact name_inj hnodup hdf hdstdf (by rw [hpos, hdstpos]; decide)
      obtain ⟨hflexdf, hflexown, hflexpos, hfqb, hfrb1, hfrb2, hfwr1, hfwr2,
        hfwr3, hfte, hfdst⟩ := hflexfacts
      have pn : ∀ {a b : Player}, a ∈ df → b ∈ df → a.position ≠ b.position →
          a.name ≠ b.name := fun ha hb hp => name_inj hnodup ha hb hp
      refine ⟨⟨qb, rb1, rb2, wr1, wr2, wr3, te, flex, dst, rfl, hqbpos,
        hrb1pos, hrb2pos, hwr1pos, hwr2pos, hwr3pos, htepos, hflexpos,
        hdstpos⟩, rfl, ?_, ?_, hsal⟩
      · simp only [List.map_cons, List.map_nil, List.nodup_cons,
          List.mem_cons, List.not_mem_nil, or_false, not_or,
          List.nodup_nil, and_true]
        refine ⟨⟨?_, ?_, ?_, ?_, ?_, ?_, ?_, ?_⟩, ⟨?_, ?_, ?_, ?_, ?_, ?_, ?_⟩,
          ⟨?_, ?_, ?_, ?_, ?_, ?_⟩, ⟨?_, ?_, ?_, ?_, ?_⟩, ⟨?_, ?_, ?_, ?_⟩,
          ⟨?_, ?_, ?_⟩, ⟨?_, ?_⟩, ?_⟩
        · exact pn hqbdf hrb1df (by rw [hqbpos, hrb1pos]; decide)
        · exact pn hqbdf hrb2df (by rw [hqbpos, hrb2pos]; decide)
        · exact pn hqbdf hwr1df (by rw [hqbpos, hwr1pos]; decide)
        · exact pn hqbdf hwr2df (by rw [hqbpos, hwr2pos]; decide)
        · exact pn hqbdf hwr3df (by rw [hqbpos, hwr3pos]; decide)
        · exact pn hqbdf htedf (by rw [hqbpos, htepos]; decide)
        · exact Ne.symm hfqb
        · exact pn hqbdf hdstdf (by rw [hqbpos, hdstpos]; decide)
        · exact Ne.symm hrb2ex
        · exact pn hrb1df hwr1df (by rw [hrb1pos, hwr1pos]; decide)
        · exact pn hrb1df hwr2df (by rw [hrb1pos, hwr2pos]; decide)
        · exact pn hrb1df hwr3df (by rw [hrb1pos, hwr3pos]; decide)
        · exact pn hrb1df htedf (by rw [hrb1pos, htepos]; decide)
        · exact Ne.symm hfrb1
        · exact pn hrb1df hdstdf (by rw [hrb1pos, hdstpos]; decide)
        · exact pn hrb2df hwr1df (by rw [hrb2pos, hwr1pos]; decide)
        · exact pn hrb2df hwr2df (by rw [hrb2pos, hwr2pos]; decide)
        · exact pn hrb2df hwr3df (by rw [hrb2pos, hwr3pos]; decide)
        · exact pn hrb2df htedf (by rw [hrb2pos, htepos]; decide)
        · exact Ne.symm hfrb2
        · exact pn hrb2df hdstdf (by rw [hrb2pos, hdstpos]; decide)
        · exact Ne.symm hwr2ex
        · exact Ne.symm hwr3ex.1
        · exact pn hwr1df htedf (by rw [hwr1pos, htepos]; decide)
        · exact Ne.symm hfwr1
        · exact pn hwr1df hdstdf (by rw [hwr1pos, hdstpos]; decide)
        · exact Ne.symm hwr3ex.2
        · exact pn hwr2df htedf (by rw [hwr2pos, htepos]; decide)
        · exact Ne.symm hfwr2
        · exact pn hwr2df hdstdf (by rw [hwr2pos, hdstpos]; decide)
        · exact pn hwr3df htedf (by rw [hwr3pos, htepos]; decide)
        · exact Ne.symm hfwr3
        · exact pn hwr3df hdstdf (by rw [hwr3pos, hdstpos]; decide)
        · exact Ne.symm hfte
        · exact pn htedf hdstdf (by rw [htepos, hdstpos]; decide)
        · exact ⟨hfdst, not_false⟩
      · intro p hp
        simp only [List.mem_cons, List.not_mem_nil, or_false] at hp
        rcases hp with rfl | rfl | rfl | rfl | rfl | rfl | rfl | rfl | rfl
        · exact ⟨hqbdf, hqbown⟩
        · exact ⟨hrb1df, hrb1own⟩
        · exact ⟨hrb2df, hrb2own⟩
        · exact ⟨hwr1df, hwr1own⟩
        · exact ⟨hwr2df, hwr2own⟩
        · exact ⟨hwr3df, hwr3own⟩
        · exact ⟨htedf, hteown⟩
        · exact ⟨hflexdf, hflexown⟩
        · exact ⟨hdstdf, hdstown⟩
    · exact absurd h (by simp)

/-- Helper: the generation loop preserves the lineup invariants and never
grows the accumulator past the requested field size. -/
theorem genLoop_invariant (df : List Player) (oracle : ℕ → ℕ → ℕ)
    (fieldSizeSim : ℕ) (hnodup : (df.map Player.name).Nodup) :
    ∀ (fuel attemptIdx : ℕ) (acc : List (List Player)),
      (∀ L ∈ acc, LineupOK df L) → acc.length ≤ fieldSizeSim →
      (∀ L ∈ genLoop df (posPool df "QB") (posPool df "RB")
          (posPool df "WR") (posPool df "TE") (posPool df "DST") oracle
          fieldSizeSim fuel attemptIdx acc, LineupOK df L) ∧
      (genLoop df (posPool df "QB") (posPool df "RB") (posPool df "WR")
          (posPool df "TE") (posPool df "DST") oracle fieldSizeSim fuel
          attemptIdx acc).length ≤ fieldSizeSim := by
  intro fuel
  induction fuel with
  | zero =>
    intro attemptIdx acc h1 h2
    exact ⟨h1, h2⟩
  | succ n ih =>
    intro attemptIdx acc h1 h2
    simp only [genLoop]
    by_cases hlt : acc.length < fieldSizeSim
    · rw [if_pos hlt]
      cases hA : attemptLineup df (posPool df "QB") (posPool df "RB")
          (posPool df "WR") (posPool df "TE") (posPool df "DST")
          (oracle attemptIdx) with
      | none =>
        simp only [hA]
        exact ih (attemptIdx + 1) acc h1 h2
      | some lineup =>
        simp only [hA]
        apply ih
        · intro L hL
          rcases List.mem_append.mp hL with hmem | hmem
          · exact h1 L hmem
          · have : L = lineup := by simpa using hmem
            subst this
            exact attemptLineup_ok hnodup hA
        · simp only [List.length_append, List.length_singleton]
          omega
    · rw [if_neg hlt]
      exact ⟨h1, h2⟩

/-- C10: with distinct player names in the slate table, every lineup
returned by `generate_field_lineups` is exactly 1 QB, 2 RBs, 3 WRs, 1 TE,
1 FLEX from the remaining RBs/WRs/TEs and 1 DST — nine distinct players,
each with positive projected ownership — with total salary at most 50000,
and the number of returned lineups never exceeds the requested field
size. -/
theorem c10_field_lineups (df : List Player) (fieldSizeSim : ℕ)
    (oracle : ℕ → ℕ → ℕ) (hnodup : (df.map Player.name).Nodup) :
    (∀ L ∈ generateFieldLineups df fieldSizeSim oracle, LineupOK df L) ∧
    (generateFieldLineups df fieldSizeSim oracle).length ≤ fieldSizeSim := by
  unfold generateFieldLineups
  exact genLoop_invariant df oracle fieldSizeSim hnodup (fieldSizeSim * 5) 0 []
    (by intro L hL; cases hL) (by simp)

/-- Nine-player slate used by the C10 witness. -/
def playersC10 : List Player :=
  [⟨"QA", "QB", 5000, 1⟩, ⟨"RA", "RB", 5000, 1⟩, ⟨"RZ", "RB", 5000, 1⟩,
   ⟨"WA", "WR", 5000, 1⟩, ⟨"WB", "WR", 5000, 1⟩, ⟨"WC", "WR", 5000, 1⟩,
   ⟨"TA", "TE", 5000, 1⟩, ⟨"TB", "TE", 5000, 1⟩, ⟨"DA", "DST", 5000, 1⟩]

/-- Witness for C10 on a concrete nine-player slate with a field size of
one lineup. -/
theorem c10_field_lineups_witness :
    ((playersC10.map Player.name).Nodup) ∧
    ((∀ L ∈ generateFieldLineups playersC10 1 (fun _ _ => 0),
        LineupOK playersC10 L) ∧
      (generateFieldLineups playersC10 1 (fun _ _ => 0)).length ≤ 1) :=
  ⟨by decide, c10_field_lineups playersC10 1 (fun _ _ => 0) (by decide)⟩
